import Mathlib

/-!
Shallow embedding of the cxp-lifecycle-cli repository (a Typer-based CLI that
uploads service configuration bundles to object storage, watches deployment
status streams, and registers applications with IAM plus a downstream
Developer Studio service).

Each definition is translated from the Python source under `src/`:
  * `src/src/cli/helpers/file.py`       - env loading and placeholder injection
  * `src/src/cli/helpers/path_utils.py` - S3 key joining
  * `src/src/cli/deploy/deploy.py`      - upload orchestration, status watching
  * `src/src/cli/register/register.py`  - registration saga with rollback
  * `src/src/cli/cancel/cancel.py`      - deployment cancellation
  * `src/src/cli/helpers/api_client.py` - HTTP client wrapper

External effects (HTTP responses, the filesystem, exceptions raised by the
`requests` library) are supplied by explicit oracle structures; Python
exceptions are modelled with `Except` / explicit exception values.
-/

/-! ### Character helpers (stand-ins for Python `str` primitives) -/

/-- Python `[A-Za-z0-9_]`, the character class of the placeholder regex
`\$\{LC\.([A-Za-z0-9_]+)\}` in `inject_env_into_schema`. -/
def isVarChar (c : Char) : Bool := c.isAlphanum || c == '_'

/-- Longest prefix of variable characters and the remaining characters
(the greedy `([A-Za-z0-9_]+)` group of the regex). -/
def takeVarChars : List Char → List Char × List Char
  | [] => ([], [])
  | c :: cs =>
    if isVarChar c then
      let p := takeVarChars cs
      (c :: p.1, p.2)
    else ([], c :: cs)

/-! ### The placeholder scanner

`re.sub(r"\$\{LC\.([A-Za-z0-9_]+)\}", replacer, obj)` in
`src/src/cli/helpers/file.py` scans the string left to right for
non-overlapping matches.  We split the string into literal characters and
matched variable names.  A match is the literal `${LC.` followed by one or
more variable characters followed by `}`; when the five-character prefix
`${LC.` is present but not completed into a match, the regex engine advances
past the `$` and the following four characters cannot start a new match
(none of them is `$`). -/

inductive Tok where
  | lit (c : Char)
  | var (v : String)
deriving DecidableEq, Repr

def Tok.isVarTok : Tok → Bool
  | .var _ => true
  | .lit _ => false

/-- Source characters a token stands for. -/
def Tok.chars : Tok → List Char
  | .lit c => [c]
  | .var v => '$' :: '{' :: 'L' :: 'C' :: '.' :: (v.data ++ ['}'])

/-- One scanning step; `recur` is the continuation on the unconsumed suffix. -/
def scanBody (recur : List Char → List Tok) : List Char → List Tok
  | '$' :: '{' :: 'L' :: 'C' :: '.' :: rest =>
    match takeVarChars rest with
    | (vcs, '}' :: rem) =>
      if vcs.isEmpty then
        .lit '$' :: .lit '{' :: .lit 'L' :: .lit 'C' :: .lit '.' :: recur rest
      else
        .var (String.mk vcs) :: recur rem
    | _ => .lit '$' :: .lit '{' :: .lit 'L' :: .lit 'C' :: .lit '.' :: recur rest
  | c :: rest => .lit c :: recur rest
  | [] => []

/-- Fuel-indexed scanner; `fuel ≥ l.length` makes the fuel irrelevant. -/
def scanTokens : Nat → List Char → List Tok
  | 0, _ => []
  | fuel+1, l => scanBody (scanTokens fuel) l

/-- Token stream of a string, per the placeholder regex. -/
def tokenize (l : List Char) : List Tok := scanTokens l.length l

/-! ### Rendering tokens through the environment

This is the `replacer` callback of `inject_env_into_schema`: a matched
variable present in `env_vars` is replaced by its value, a missing variable
raises `ValueError`. -/

def renderToks (env : String → Option String) : List Tok → Except String (List Char)
  | [] => .ok []
  | .lit c :: ts => (renderToks env ts).map (c :: ·)
  | .var v :: ts =>
    match env v with
    | some s => (renderToks env ts).map (fun r => s.data ++ r)
    | none =>
      .error ("Environment variable " ++ v ++ " is not defined in the environment file")

/-- Model of `re.sub(pattern, replacer, obj)` applied to one string value:
either the substituted string or the `ValueError` message of `replacer`. -/
def subLC (env : String → Option String) (s : String) : Except String String :=
  (renderToks env (tokenize s.data)).map String.mk

/-- Variable names of the placeholders occurring in a string. -/
def placeholderVars (s : String) : List String :=
  (tokenize s.data).filterMap (fun t => match t with | .var v => some v | .lit _ => none)

/-- A string with no placeholder match. -/
def hasNoPlaceholder (s : String) : Bool := !(tokenize s.data).any Tok.isVarTok

/-! ### JSON/YAML document trees

`inject_env_into_schema` loads the file into a Python object built from
dicts, lists, strings, numbers, booleans and `None`, and `replace_in_obj`
walks that tree. -/

mutual
inductive Json where
  | jnull : Json
  | jbool (b : Bool) : Json
  | jnum (n : Int) : Json
  | jstr (s : String) : Json
  | jarr (items : JList) : Json
  | jobj (fields : JFields) : Json
inductive JList where
  | nil : JList
  | cons (hd : Json) (tl : JList) : JList
inductive JFields where
  | nil : JFields
  | cons (k : String) (v : Json) (tl : JFields) : JFields
end

/-! `replace_in_obj` from `src/src/cli/helpers/file.py` (lines 46-64):
dictionaries and lists are rebuilt with substituted members, strings go
through the regex substitution, everything else is returned unchanged.  The
`ValueError` of the `replacer` callback propagates, so the whole call either
returns a fully substituted tree or fails. -/

mutual
def replace_in_obj (env : String → Option String) : Json → Except String Json
  | .jobj fields => (replaceFields env fields).map .jobj
  | .jarr items => (replaceList env items).map .jarr
  | .jstr s => (subLC env s).map .jstr
  | .jnull => .ok .jnull
  | .jbool b => .ok (.jbool b)
  | .jnum n => .ok (.jnum n)
def replaceList (env : String → Option String) : JList → Except String JList
  | .nil => .ok .nil
  | .cons j js =>
    match replace_in_obj env j, replaceList env js with
    | .ok j2, .ok js2 => .ok (.cons j2 js2)
    | .error e, _ => .error e
    | _, .error e => .error e
def replaceFields (env : String → Option String) : JFields → Except String JFields
  | .nil => .ok .nil
  | .cons k v fs =>
    match replace_in_obj env v, replaceFields env fs with
    | .ok v2, .ok fs2 => .ok (.cons k v2 fs2)
    | .error e, _ => .error e
    | _, .error e => .error e
end

/-! No string value of the document contains a placeholder match. -/

mutual
def noPHJson : Json → Bool
  | .jobj fields => noPHFields fields
  | .jarr items => noPHList items
  | .jstr s => hasNoPlaceholder s
  | _ => true
def noPHList : JList → Bool
  | .nil => true
  | .cons j js => noPHJson j && noPHList js
def noPHFields : JFields → Bool
  | .nil => true
  | .cons _ v fs => noPHJson v && noPHFields fs
end

/-! Variable names of all placeholders occurring in string values of the
document. -/

mutual
def jsonVars : Json → List String
  | .jobj fields => jFieldsVars fields
  | .jarr items => jListVars items
  | .jstr s => placeholderVars s
  | _ => []
def jListVars : JList → List String
  | .nil => []
  | .cons j js => jsonVars j ++ jListVars js
def jFieldsVars : JFields → List String
  | .nil => []
  | .cons _ v fs => jsonVars v ++ jFieldsVars fs
end

/-! Placeholder-free documents are returned unchanged by the substitution. -/

/-! A document referencing a variable absent from the environment mapping
makes the substitution fail with an error for the whole document. -/

/-! ### S3 key joining

`join_s3_path` from `src/src/cli/helpers/path_utils.py` (lines 176-205).
A component is either a plain string (normalized by
`str(part).replace("\\", "/").replace(os.sep, "/")`) or a `pathlib` path
(normalized by `part.as_posix()`).  On a POSIX system `as_posix` returns the
path string unchanged, backslashes included.  Every normalized component is
then stripped of leading and trailing forward slashes and the components are
joined with single `/` characters.  `os.sep` is a single character on every
supported platform, so `str.replace` with it is a character map. -/

/-- Python `str.replace` for a one-character pattern and replacement. -/
def charReplace (pat rep : Char) (l : List Char) : List Char :=
  l.map (fun c => if c == pat then rep else c)

/-- Python `str.strip("/")`. -/
def stripSlashes (l : List Char) : List Char :=
  ((l.dropWhile (· == '/')).reverse.dropWhile (· == '/')).reverse

inductive S3Part where
  | strPart (s : String)
  | posixPathPart (s : String)
deriving DecidableEq, Repr

/-- Normalization branch of the loop body of `join_s3_path`: `as_posix()`
for path objects, separator replacement for strings. -/
def normalizeS3Part (sep : Char) : S3Part → List Char
  | .posixPathPart s => s.data
  | .strPart s => charReplace sep '/' (charReplace '\\' '/' s.data)

/-- Python `"/".join`. -/
def joinSlash : List (List Char) → List Char
  | [] => []
  | [p] => p
  | p :: ps => p ++ '/' :: joinSlash ps

/-- Model of `join_s3_path(*parts)`; `sep` is `os.sep`. -/
def join_s3_path (sep : Char) (parts : List S3Part) : String :=
  String.mk (joinSlash (parts.map (fun p => stripSlashes (normalizeS3Part sep p))))

/-! ### The upload orchestrator

`upload_services_config_to_s3` and its inner `upload_file` from
`src/src/cli/deploy/deploy.py` (lines 35-235).  The embedding models a POSIX
platform (`os.sep` is `/`, `os.path.basename` splits on `/`).  The network
and the filesystem are oracles: `presign` is the response of
`POST s3/generate_presigned_url` for a given key (or a raised exception),
`put` is the result of `requests.put` on the presigned URL (status code or
raised exception), `fileDoc` is the parsed content of a structured file and
`fileRaw` the raw bytes of a file.  `walk` lists the relative paths of the
files found under a folder by `os.walk` (each of which satisfies the
`os.path.isfile` check). -/

/-- Python `str.endswith`. -/
def strEndsWith (s suf : String) : Bool := suf.data.isSuffixOf s.data

/-- Python `os.path.basename` on a POSIX path. -/
def basename (s : String) : String :=
  String.mk ((s.data.reverse.takeWhile (fun c => c != '/')).reverse)

/-! Stand-in for the `json.dumps(injected_data, indent=2)` library call: a
concrete injective-enough rendering of the document.  The claims only relate
the uploaded bytes to the serialization of the substituted document, never
to a particular layout. -/

/-! (json.dumps stand-in) -/

mutual
def jsonDumps : Json → String
  | .jnull => "null"
  | .jbool true => "true"
  | .jbool false => "false"
  | .jnum n => toString n
  | .jstr s => "\"" ++ s ++ "\""
  | .jarr items => "[" ++ jsonDumpsList items ++ "]"
  | .jobj fields => "\x7b" ++ jsonDumpsFields fields ++ "\x7d"
def jsonDumpsList : JList → String
  | .nil => ""
  | .cons j .nil => jsonDumps j
  | .cons j js => jsonDumps j ++ ", " ++ jsonDumpsList js
def jsonDumpsFields : JFields → String
  | .nil => ""
  | .cons k v .nil => "\"" ++ k ++ "\": " ++ jsonDumps v
  | .cons k v fs => "\"" ++ k ++ "\": " ++ jsonDumps v ++ ", " ++ jsonDumpsFields fs
end

/-! Stand-in for the `yaml.dump(injected_data, sort_keys=False)` library
call (flow style rendering). -/

mutual
def yamlDump : Json → String
  | .jnull => "null"
  | .jbool true => "true"
  | .jbool false => "false"
  | .jnum n => toString n
  | .jstr s => s
  | .jarr items => "[" ++ yamlDumpList items ++ "]"
  | .jobj fields => "\x7b" ++ yamlDumpFields fields ++ "\x7d"
def yamlDumpList : JList → String
  | .nil => ""
  | .cons j .nil => yamlDump j
  | .cons j js => yamlDump j ++ ", " ++ yamlDumpList js
def yamlDumpFields : JFields → String
  | .nil => ""
  | .cons k v .nil => k ++ ": " ++ yamlDump v
  | .cons k v fs => k ++ ": " ++ yamlDump v ++ ", " ++ yamlDumpFields fs
end

/-- Model of `inject_env_into_schema(schema_path, env_vars)` from
`src/src/cli/helpers/file.py` (lines 38-71).  The parsed document `doc` is
supplied by the filesystem oracle.  The load dispatch accepts `.yaml`,
`.yml` and `.json` (anything else leaves `data` unbound, a `NameError`);
the serialization dispatch renders `.json` with `json.dumps`, `.yaml` with
`yaml.dump` and returns the empty string otherwise (in particular for
`.yml`). -/
def inject_env_into_schema (schema_path : String) (doc : Json)
    (env_vars : String → Option String) : Except String String :=
  if strEndsWith schema_path ".yaml" || strEndsWith schema_path ".yml"
      || strEndsWith schema_path ".json" then
    (replace_in_obj env_vars doc).map (fun injected_data =>
      if strEndsWith schema_path ".json" then jsonDumps injected_data
      else if strEndsWith schema_path ".yaml" then yamlDump injected_data
      else "")
  else
    .error "NameError: name data is not defined"

structure UTask where
  service : String
  file_path : String
  s3_key : String
  folder_path : String
deriving DecidableEq, Repr

structure HttpResp where
  status_code : Nat
  text : String
  url : String
deriving DecidableEq, Repr

inductive PutBody where
  | strBody (s : String)
  | rawBody (bytes : List Nat)
deriving DecidableEq, Repr

structure PutCall where
  url : String
  body : PutBody
deriving DecidableEq, Repr

structure UploadWorld where
  presign : String → Except String HttpResp
  put : String → PutBody → Except String Nat
  fileDoc : String → Json
  fileRaw : String → List Nat

/-- The inner `upload_file(task)` worker (deploy.py lines 149-192).  It
returns `none` on success and `some message` on failure; the whole body is
wrapped in `try/except Exception`, so exceptions raised by the HTTP calls or
by the injection become the catch-all message.  The second component lists
the PUT requests the task issued. -/
def upload_file (w : UploadWorld) (env_vars : String → Option String)
    (task : UTask) : Option String × List PutCall :=
  match w.presign task.s3_key with
  | .error e => (some ("Error uploading " ++ task.file_path ++ ": " ++ e), [])
  | .ok resp =>
    if resp.status_code ≠ 200 then
      (some ("Failed to generate presigned URL for " ++ task.file_path ++ ": " ++ resp.text), [])
    else
      let presigned_url := resp.url
      let file_name := basename task.file_path
      if strEndsWith file_name ".json" || strEndsWith file_name ".yaml" then
        match inject_env_into_schema task.file_path (w.fileDoc task.file_path) env_vars with
        | .error e => (some ("Error uploading " ++ task.file_path ++ ": " ++ e), [])
        | .ok injected_content =>
          match w.put presigned_url (.strBody injected_content) with
          | .error e => (some ("Error uploading " ++ task.file_path ++ ": " ++ e),
              [⟨presigned_url, .strBody injected_content⟩])
          | .ok status =>
            if status ≠ 200 then
              (some ("Upload failed for " ++ task.file_path ++ ": HTTP " ++ toString status),
                [⟨presigned_url, .strBody injected_content⟩])
            else
              (none, [⟨presigned_url, .strBody injected_content⟩])
      else
        match w.put presigned_url (.rawBody (w.fileRaw task.file_path)) with
        | .error e => (some ("Error uploading " ++ task.file_path ++ ": " ++ e),
            [⟨presigned_url, .rawBody (w.fileRaw task.file_path)⟩])
        | .ok status =>
          if status ≠ 200 then
            (some ("Upload failed for " ++ task.file_path ++ ": HTTP " ++ toString status),
              [⟨presigned_url, .rawBody (w.fileRaw task.file_path)⟩])
          else
            (none, [⟨presigned_url, .rawBody (w.fileRaw task.file_path)⟩])

/-- `CONFIG_FILE` from `src/src/cli/config.py`. -/
def CONFIG_FILE : String := "lifecycle_config.yaml"

/-- Tasks built for one selected service (deploy.py lines 109-127): every
file found by `os.walk` under the service folder becomes a task; there is no
filtering on file names. -/
def serviceTasks (walk : String → List String) (appId deploymentId : String)
    (service folder_path : String) : List UTask :=
  let kp := join_s3_path '/'
    [.strPart "lifecycle", .strPart appId, .strPart deploymentId, .strPart service]
  (walk folder_path).map (fun rel =>
    { service := service
      file_path := folder_path ++ "/" ++ rel
      s3_key := join_s3_path '/' [.strPart kp, .strPart rel]
      folder_path := folder_path })

/-- The key prefix recorded in `services_payload` for a service
(deploy.py lines 111 and 129). -/
def serviceKeyPfx (appId deploymentId service : String) : String :=
  join_s3_path '/'
    [.strPart "lifecycle", .strPart appId, .strPart deploymentId, .strPart service]

/-- The fixed lifecycle-manifest task appended after the per-service tasks
(deploy.py lines 138-147). -/
def lifecycleTask (appId deploymentId : String) : UTask :=
  { service := "lifecycle"
    file_path := "lifecycle/" ++ CONFIG_FILE
    s3_key := join_s3_path '/'
      [.strPart "lifecycle", .strPart appId, .strPart deploymentId, .strPart CONFIG_FILE]
    folder_path := "lifecycle" }

inductive UploadResult where
  | exitZero
  | exitOne (errors : List String)
  | ok (services_payload : List (String × String)) (services : List String)
deriving DecidableEq, Repr

/-- All upload tasks of a run: the per-service walks followed by the
lifecycle-manifest task. -/
def allUploadTasks (core_services : List (String × String))
    (walk : String → List String) (appId deploymentId : String)
    (services_to_deploy : List String) : List UTask :=
  services_to_deploy.flatMap (fun service =>
    serviceTasks walk appId deploymentId service
      ((core_services.lookup service).getD ""))
    ++ [lifecycleTask appId deploymentId]

/-- Model of `upload_services_config_to_s3` (deploy.py lines 35-235) after
the service selection has been resolved (`services_to_deploy` is the full
registered list under `--deploy-all`, or the interactive selection).  An
empty selection exits with code 0; otherwise every task is executed, the
error messages are collected, and the function exits with code 1 when any
task failed, else returns the payload mapping and the service list. -/
def upload_services_config_to_s3 (w : UploadWorld)
    (env_vars : String → Option String)
    (core_services : List (String × String)) (walk : String → List String)
    (appId deploymentId : String) (services_to_deploy : List String) :
    UploadResult :=
  if services_to_deploy.isEmpty then .exitZero
  else
    let upload_tasks := allUploadTasks core_services walk appId deploymentId
      services_to_deploy
    let errors := upload_tasks.filterMap (fun t => (upload_file w env_vars t).1)
    if errors.isEmpty then
      .ok (services_to_deploy.map (fun s => (s, serviceKeyPfx appId deploymentId s)))
        services_to_deploy
    else .exitOne errors

/-! ### The status-stream watch loop

`get_status` with `--watch` from `src/src/cli/deploy/deploy.py`
(lines 481-607).  Each SSE event is either empty data (skipped), data that
fails `json.loads` (logged, loop continues), or a parsed status object with
optional `info` and `error` fields and a `services` map.  The loop body
breaks on a connection-closed info message, on the deployment-not-found
error message, or after displaying a frame in which some service reports
`Validation Failed`; otherwise it continues with the next event. -/

/-- Python `needle in hay` on strings. -/
def containsSub (hay needle : List Char) : Bool :=
  needle.isPrefixOf hay ||
    match hay with
    | [] => false
    | _ :: t => containsSub t needle

def strContains (s sub : String) : Bool := containsSub s.data sub.data

structure SvcStatus where
  deployment_status : Option String
  failure_reason : Option String
deriving DecidableEq, Repr

structure StatusData where
  infoField : Option String
  errorField : Option String
  services : List (String × SvcStatus)
deriving DecidableEq, Repr

inductive SseEvent where
  | emptyData
  | badJson (raw : String)
  | jsonData (d : StatusData)
deriving DecidableEq, Repr

inductive WatchStop where
  | connectionClosed
  | notFound
  | validationFailed
deriving DecidableEq, Repr

inductive StepResult where
  | halt (r : WatchStop)
  | continueLoop
deriving DecidableEq, Repr

/-- The `services` handling part of the loop body (deploy.py lines 552-582):
an empty map continues, a map with a `Validation Failed` status breaks after
display, any other map is displayed and the loop continues. -/
def watchServicesPart (d : StatusData) : StepResult :=
  if d.services.isEmpty then .continueLoop
  else if d.services.any (fun kv => kv.2.deployment_status == some "Validation Failed") then
    .halt .validationFailed
  else .continueLoop

/-- The `error` check of the loop body (deploy.py lines 530-538), applied
to the `error` field of the frame. -/
def watchErrorPart : Option String → StatusData → StepResult
  | some err, d =>
    if err == "Deployment not found" then .halt .notFound else watchServicesPart d
  | none, d => watchServicesPart d

/-- The `info` check of the loop body (deploy.py lines 523-528), applied to
the `info` field of the frame. -/
def watchInfoPart : Option String → StatusData → StepResult
  | some msg, d =>
    if strContains msg "Connection closed" then .halt .connectionClosed
    else watchErrorPart d.errorField d
  | none, d => watchErrorPart d.errorField d

/-- One iteration of the SSE read loop of `get_status --watch`. -/
def watchStep : SseEvent → StepResult
  | .emptyData => .continueLoop
  | .badJson _ => .continueLoop
  | .jsonData d => watchInfoPart d.infoField d

/-- The watch loop over the received event sequence: the reason the loop
broke, or `none` if the stream ended (or was interrupted) without a break. -/
def get_status_watch : List SseEvent → Option WatchStop
  | [] => none
  | e :: rest =>
    match watchStep e with
    | .halt r => some r
    | .continueLoop => get_status_watch rest

/-! ### The registration saga

`src/src/cli/register/register.py`.  `raise_for_status` raises
`requests.exceptions.HTTPError` for any response status in `[400, 600)`;
`HTTPError`, `ConnectionError` and `Timeout` are subclasses of
`requests.exceptions.RequestException`.  The tenacity decorator
`@retry(stop=stop_after_attempt(3), wait=wait_exponential(...),
retry=retry_if_exception_type((requests.exceptions.RequestException,
ConnectionError)))` retries a retryable failure until the third attempt and
then raises `RetryError`; a non-retryable exception propagates at once. -/

inductive PyExc where
  | httpError (status : Nat)
  | reqConnectionError
  | reqTimeout
  | builtinConnectionError
  | valueError (msg : String)
  | typeError (msg : String)
  | tenacityRetryError (last : PyExc)
  | otherError (msg : String)
deriving DecidableEq, Repr

/-- Membership in `requests.exceptions.RequestException`. -/
def isRequestException : PyExc → Bool
  | .httpError _ => true
  | .reqConnectionError => true
  | .reqTimeout => true
  | _ => false

/-- The retry predicate used by both decorators:
`(requests.exceptions.RequestException, ConnectionError)`. -/
def retryPredicate (e : PyExc) : Bool :=
  isRequestException e ||
    match e with
    | .builtinConnectionError => true
    | _ => false

inductive RetryOutcome (α : Type) where
  | ok (attemptsMade : Nat) (a : α)
  | raised (attemptsMade : Nat) (e : PyExc)
  | retryError (attemptsMade : Nat) (last : PyExc)
deriving DecidableEq, Repr

def RetryOutcome.attemptsMade : RetryOutcome α → Nat
  | .ok n _ => n
  | .raised n _ => n
  | .retryError n _ => n

/-- Tenacity attempt loop: `remaining` attempts are left, `i` attempts were
already made.  The attempt outcomes are supplied by the oracle `f`. -/
def tenacityAux (retryable : PyExc → Bool) (f : Nat → Except PyExc α) :
    Nat → Nat → RetryOutcome α
  | 0, i => .retryError i (.otherError "unreachable: stop_after_attempt is positive")
  | remaining+1, i =>
    match f i with
    | .ok a => .ok (i+1) a
    | .error e =>
      if retryable e then
        if remaining == 0 then .retryError (i+1) e
        else tenacityAux retryable f remaining (i+1)
      else .raised (i+1) e

/-- A function decorated with `@retry(stop=stop_after_attempt(maxAttempts),
retry=retry_if_exception_type(...))`. -/
def tenacityRun (retryable : PyExc → Bool) (maxAttempts : Nat)
    (f : Nat → Except PyExc α) : RetryOutcome α :=
  tenacityAux retryable f maxAttempts 0

/-- Python `response.raise_for_status()` raises for `400 ≤ status < 600`. -/
def raisesForStatus (status : Nat) : Bool := 400 ≤ status && status < 600

structure MeResp where
  status_code : Nat
  account_id : Option String
deriving DecidableEq, Repr

/-- One attempt of the decorated `_fetch_account_id` (register.py lines
163-178): a GET of `/cxp-iam/api/v1/users/me` (network exceptions supplied
by the oracle), `raise_for_status`, then the `associatedAccount.id` lookup
which raises `ValueError` when absent. -/
def fetchAccountIdAttempt (meResp : Nat → Except PyExc MeResp) (i : Nat) :
    Except PyExc String :=
  match meResp i with
  | .error e => .error e
  | .ok resp =>
    if raisesForStatus resp.status_code then .error (.httpError resp.status_code)
    else
      match resp.account_id with
      | some a => .ok a
      | none => .error (.valueError "accountId not found in user profile response")

/-- The decorated `_fetch_account_id`. -/
def fetch_account_id (meResp : Nat → Except PyExc MeResp) : RetryOutcome String :=
  tenacityRun retryPredicate 3 (fetchAccountIdAttempt meResp)

structure DsResp where
  status_code : Nat
deriving DecidableEq, Repr

/-- One attempt of the decorated `_create` (register.py lines 207-225): the
POST of `/lifecycle/api/v1/deployment/applications` followed by
`raise_for_status`. -/
def createDsAttempt (dsResp : Nat → Except PyExc DsResp) (i : Nat) :
    Except PyExc DsResp :=
  match dsResp i with
  | .error e => .error e
  | .ok r =>
    if raisesForStatus r.status_code then .error (.httpError r.status_code)
    else .ok r

inductive CadsOutcome where
  | okDs (r : DsResp)
  | typerExit (code : Nat)
  | uncaught (e : PyExc)
deriving DecidableEq, Repr

/-- `create_application_in_developer_studio` (register.py lines 157-334).
The account-id fetch is guarded by `except (RequestException,
ConnectionError)` and `except ValueError`, both exiting with code 1; a
`RetryError` raised by its decorator matches neither clause and propagates
uncaught.  The downstream `_create()` call is guarded by except clauses for
`HTTPError`, connection errors, timeouts, `RetryError` and a catch-all
`Exception`, every one of which exits with code 1. -/
def create_application_in_developer_studio (meResp : Nat → Except PyExc MeResp)
    (dsResp : Nat → Except PyExc DsResp) : CadsOutcome :=
  match fetch_account_id meResp with
  | .retryError _ last => .uncaught (.tenacityRetryError last)
  | .raised _ e =>
    if retryPredicate e then .typerExit 1
    else
      match e with
      | .valueError _ => .typerExit 1
      | _ => .uncaught e
  | .ok _ _ =>
    match tenacityRun retryPredicate 3 (createDsAttempt dsResp) with
    | .ok _ r => .okDs r
    | .retryError _ _ => .typerExit 1
    | .raised _ _ => .typerExit 1

/-- `delete_application_from_iam` (register.py lines 130-154): DELETE plus
`raise_for_status` wrapped in `except requests.exceptions.RequestException`,
which only prints a cleanup warning.  Returns whether the warning was
printed; an exception outside `RequestException` would propagate. -/
def delete_application_from_iam (deleteResp : Except PyExc Nat) :
    Except PyExc Bool :=
  match deleteResp with
  | .ok status => .ok (raisesForStatus status)
  | .error e => if isRequestException e then .ok true else .error e

structure IamCreateResp where
  status_code : Nat
  app_id : String
deriving DecidableEq, Repr

structure RegisterWorld where
  iamCreate : Except PyExc IamCreateResp
  meResp : Nat → Except PyExc MeResp
  dsResp : Nat → Except PyExc DsResp
  deleteResp : Except PyExc Nat

inductive RegisterOutcome where
  | completed (app_id : String)
  | exitNonZero (code : Nat) (rolledBack : Bool) (cleanupWarned : Bool)
  | crashed (e : PyExc)
deriving DecidableEq, Repr

/-- The `register` command (register.py lines 336-381): create the IAM
application (`create_application` exits 1 on any `RequestException`,
including `raise_for_status` failures), then the Developer Studio creation;
on its `typer.Exit` the IAM record is deleted and the command exits 1; on
success the config update and the remaining steps follow (`completed`). -/
def register (w : RegisterWorld) : RegisterOutcome :=
  match w.iamCreate with
  | .error e => if isRequestException e then .exitNonZero 1 false false else .crashed e
  | .ok resp =>
    if raisesForStatus resp.status_code then .exitNonZero 1 false false
    else
      match create_application_in_developer_studio w.meResp w.dsResp with
      | .okDs _ => .completed resp.app_id
      | .typerExit _ =>
        match delete_application_from_iam w.deleteResp with
        | .ok warned => .exitNonZero 1 true warned
        | .error e => .crashed e
      | .uncaught e => .crashed e

/-! ### The cancel command and the HTTP client wrapper

`src/src/cli/cancel/cancel.py` and `src/src/cli/helpers/api_client.py`.
`requests.Session.request` accepts only a fixed set of keyword arguments; an
unexpected keyword argument raises `TypeError` before any request is sent.
`APIClient.post(endpoint, json=None, **kwargs)` forwards its keyword
arguments to `Session.post`, which forwards them to `Session.request`. -/

/-- The keyword parameters of `requests.Session.request` that `**kwargs`
may bind. -/
def sessionRequestKwargs : List String :=
  ["params", "data", "headers", "cookies", "files", "auth", "timeout",
   "allow_redirects", "proxies", "hooks", "stream", "verify", "cert", "json"]

structure HttpRequest where
  method : String
  url : String
  jsonBody : Option String
  kwargs : List (String × String)
deriving DecidableEq, Repr

/-- `Session.request`: checks the keyword arguments, then performs the
request (response supplied by the oracle).  The second component lists the
requests actually sent over the network. -/
def sessionRequest (oracle : HttpRequest → HttpResp) (r : HttpRequest) :
    Except PyExc HttpResp × List HttpRequest :=
  match r.kwargs.find? (fun kv => !(sessionRequestKwargs.contains kv.1)) with
  | some kv =>
    (.error (.typeError ("request() got an unexpected keyword argument " ++ kv.1)), [])
  | none => (.ok (oracle r), [r])

/-- `APIClient._build_url`: base url, a slash, and the endpoint with leading
slashes stripped. -/
def build_url (base endpoint : String) : String :=
  base ++ "/" ++ String.mk (endpoint.data.dropWhile (· == '/'))

/-- `APIClient.post(endpoint, json=json, **kwargs)`. -/
def apiClientPost (oracle : HttpRequest → HttpResp) (base endpoint : String)
    (jsonBody : Option String) (kwargs : List (String × String)) :
    Except PyExc HttpResp × List HttpRequest :=
  sessionRequest oracle ⟨"POST", build_url base endpoint, jsonBody, kwargs⟩

/-- The `cancel` command (cancel.py lines 6-30):
`api.post(f"/cancel/", deployment_id=deployment_id, headers=...)`, then a
success message on status 200 and a failure message otherwise.  The returned
boolean is whether the success message was printed; a raised exception
propagates out of the command. -/
def cancel (oracle : HttpRequest → HttpResp) (base deployment_id : String) :
    Except PyExc Bool × List HttpRequest :=
  match apiClientPost oracle base "/cancel/" none
      [("deployment_id", deployment_id), ("headers", "Content-Type: application/json")] with
  | (.error e, reqs) => (.error e, reqs)
  | (.ok resp, reqs) => (.ok (resp.status_code == 200), reqs)

/-! ### Concrete instances used by witnesses and counterexamples -/

def envNone : String → Option String := fun _ => none

def docC7 : Json :=
  Json.jobj (JFields.cons "name" (Json.jstr "hello world")
    (JFields.cons "items"
      (Json.jarr (JList.cons (Json.jnum 3) (JList.cons (Json.jstr "plain") JList.nil)))
      (JFields.cons "flag" (Json.jbool true) JFields.nil)))

/-- A document whose only string value holds the placeholder for `DB_URL`. -/
def docMissing : Json :=
  Json.jobj (JFields.cons "url" (Json.jstr "$\x7bLC.DB_URL\x7d") JFields.nil)

/-- A document whose only string value holds the placeholder for `HOST`. -/
def docHost : Json :=
  Json.jobj (JFields.cons "url" (Json.jstr "$\x7bLC.HOST\x7d") JFields.nil)

def envHost : String → Option String := fun v => if v == "HOST" then some "h" else none

def wC8 : UploadWorld :=
  { presign := fun _ => Except.ok ⟨200, "", "https://s3.example/upload"⟩
    put := fun _ _ => Except.ok 200
    fileDoc := fun _ => docMissing
    fileRaw := fun _ => [1, 2] }

def tskC8 : UTask :=
  { service := "iam", file_path := "lifecycle/iam/conf.json", s3_key := "k1",
    folder_path := "lifecycle/iam" }

def wC6 : UploadWorld :=
  { presign := fun _ => Except.ok ⟨200, "", "u"⟩
    put := fun _ _ => Except.ok 200
    fileDoc := fun _ => docHost
    fileRaw := fun _ => [7, 8] }

def tskYml : UTask :=
  { service := "iam", file_path := "lifecycle/iam/conf.yml", s3_key := "k2",
    folder_path := "lifecycle/iam" }

def tskJson : UTask :=
  { service := "iam", file_path := "lifecycle/iam/conf.json", s3_key := "k3",
    folder_path := "lifecycle/iam" }

/-- A registered-service map with one service whose folder holds only an
example-marked file. -/
def coreBeta : List (String × String) := [("beta", "b")]

def walkBeta : String → List String :=
  fun f => if f == "b" then ["conf.example.json"] else []

/-- A world in which every request succeeds. -/
def wOk : UploadWorld :=
  { presign := fun _ => Except.ok ⟨200, "", "u"⟩
    put := fun _ _ => Except.ok 200
    fileDoc := fun _ => Json.jnull
    fileRaw := fun _ => [] }

def coreAlpha : List (String × String) := [("alpha", "a")]

def walkAlpha : String → List String :=
  fun f => if f == "a" then ["one.txt", "two.txt"] else []

/-- A world in which exactly the presigned-URL request for
`alpha/two.txt` answers HTTP 500. -/
def wMix : UploadWorld :=
  { presign := fun key =>
      if key == "lifecycle/app-1/dep-1/alpha/two.txt" then Except.ok ⟨500, "boom", "u"⟩
      else Except.ok ⟨200, "", "u"⟩
    put := fun _ _ => Except.ok 200
    fileDoc := fun _ => Json.jnull
    fileRaw := fun _ => [0] }

/-- All services report the terminal success status `Done`. -/
def frameAllDone : StatusData :=
  { infoField := none, errorField := none,
    services := [("svc1", ⟨some "Done", none⟩), ("svc2", ⟨some "Done", none⟩)] }

/-- One service failed validation while another is still in progress. -/
def frameMixed : StatusData :=
  { infoField := none, errorField := none,
    services := [("svc1", ⟨some "Validation Failed", none⟩),
                 ("svc2", ⟨some "In Progress", none⟩)] }

/-- The `/users/me` endpoint answers 404 on the first attempt and succeeds
on the second. -/
def meResp404 : Nat → Except PyExc MeResp :=
  fun i => if i == 0 then .ok ⟨404, none⟩ else .ok ⟨200, some "acct-1"⟩

/-- The Developer Studio create answers 409 on the first attempt and
succeeds on the second. -/
def dsResp409 : Nat → Except PyExc DsResp :=
  fun i => if i == 0 then .ok ⟨409⟩ else .ok ⟨200⟩

/-- The account-id fetch succeeds at once; every Developer Studio create
attempt raises a connection error; the rollback DELETE itself fails. -/
def wRegFail : RegisterWorld :=
  { iamCreate := .ok ⟨200, "app-1"⟩
    meResp := fun _ => .ok ⟨200, some "acct-1"⟩
    dsResp := fun _ => .error .reqConnectionError
    deleteResp := .error .reqConnectionError }

/-! ### Lemmas and claim theorems -/

theorem takeVarChars_append (l : List Char) :
    (takeVarChars l).1 ++ (takeVarChars l).2 = l := by
  induction l with
  | nil => rfl
  | cons c cs ih =>
    simp only [takeVarChars]
    split
    · simpa using ih
    · rfl

theorem takeVarChars_snd_length (l : List Char) :
    (takeVarChars l).2.length ≤ l.length := by
  induction l with
  | nil => simp [takeVarChars]
  | cons c cs ih =>
    simp only [takeVarChars]
    split
    · simpa using Nat.le_succ_of_le ih
    · simp

/-- Concatenating the source characters of the tokens recovers the input. -/
theorem scanTokens_chars :
    ∀ fuel l, l.length ≤ fuel → (scanTokens fuel l).flatMap Tok.chars = l := by
  intro fuel
  induction fuel with
  | zero =>
    intro l h
    have : l = [] := List.length_eq_zero.mp (Nat.le_zero.mp h)
    subst this
    rfl
  | succ fuel ih =>
    intro l h
    rw [scanTokens, scanBody.eq_def]
    split
    · next rest =>
      have hlen : rest.length + 5 ≤ fuel + 1 := by simpa using h
      split
      · next vcs rem heq =>
        split
        · next hempty =>
          have : rest.length ≤ fuel := by omega
          simp [List.flatMap_cons, Tok.chars, ih rest this]
        · next hnempty =>
          have hrec : rest = vcs ++ '}' :: rem := by
            conv_lhs => rw [← takeVarChars_append rest]
            rw [heq]
          have hrem : rem.length ≤ fuel := by
            have h2 := takeVarChars_snd_length rest
            rw [heq] at h2
            simp at h2
            omega
          simp [List.flatMap_cons, Tok.chars, ih rem hrem, hrec]
      · next =>
        have : rest.length ≤ fuel := by omega
        simp [List.flatMap_cons, Tok.chars, ih rest this]
    · next c rest _ =>
      have : rest.length ≤ fuel := by
        have : (c :: rest).length ≤ fuel + 1 := h
        simpa using this
      simp [List.flatMap_cons, Tok.chars, ih rest this]
    · rfl

theorem tokenize_chars (l : List Char) : (tokenize l).flatMap Tok.chars = l :=
  scanTokens_chars l.length l (Nat.le_refl _)

theorem renderToks_of_no_var (env : String → Option String) (ts : List Tok)
    (h : ts.any Tok.isVarTok = false) :
    renderToks env ts = .ok (ts.flatMap Tok.chars) := by
  induction ts with
  | nil => rfl
  | cons t ts ih =>
    cases t with
    | lit c =>
      simp only [List.any_cons, Bool.or_eq_false_iff] at h
      simp [renderToks, ih h.2, List.flatMap_cons, Tok.chars, Except.map]
    | var v => simp [List.any_cons, Tok.isVarTok] at h

/-- Substitution on a string with no placeholder is the identity. -/
theorem subLC_of_no_placeholder (env : String → Option String) (s : String)
    (h : hasNoPlaceholder s = true) : subLC env s = .ok s := by
  unfold subLC
  unfold hasNoPlaceholder at h
  rw [renderToks_of_no_var env _ (by simpa using h), tokenize_chars]
  rfl

theorem renderToks_error_of_missing (env : String → Option String) (ts : List Tok)
    (v : String)
    (hv : v ∈ ts.filterMap (fun t => match t with | .var w => some w | .lit _ => none))
    (hmiss : env v = none) : ∃ msg, renderToks env ts = .error msg := by
  induction ts with
  | nil => simp at hv
  | cons t ts ih =>
    cases t with
    | lit c =>
      simp only [List.filterMap_cons] at hv
      obtain ⟨msg, hmsg⟩ := ih hv
      exact ⟨msg, by simp [renderToks, hmsg, Except.map]⟩
    | var w =>
      by_cases hw : env w = none
      · exact ⟨"Environment variable " ++ w ++ " is not defined in the environment file",
          by simp [renderToks, hw]⟩
      · obtain ⟨val, hval⟩ := Option.ne_none_iff_exists'.mp hw
        simp only [List.filterMap_cons] at hv
        rcases List.mem_cons.mp hv with rfl | hv2
        · exact absurd hmiss hw
        · obtain ⟨msg, hmsg⟩ := ih hv2
          exact ⟨msg, by simp [renderToks, hval, hmsg, Except.map]⟩

/-- Substitution on a string referencing a variable absent from the
environment mapping fails with an error. -/
theorem subLC_error_of_missing (env : String → Option String) (s : String)
    (v : String) (hv : v ∈ placeholderVars s) (hmiss : env v = none) :
    ∃ msg, subLC env s = .error msg := by
  obtain ⟨msg, hmsg⟩ := renderToks_error_of_missing env (tokenize s.data) v hv hmiss
  exact ⟨msg, by simp [subLC, hmsg, Except.map]⟩

mutual
theorem replace_in_obj_id (env : String → Option String) :
    ∀ j : Json, noPHJson j = true → replace_in_obj env j = .ok j
  | .jnull, _ => rfl
  | .jbool _, _ => rfl
  | .jnum _, _ => rfl
  | .jstr s, h => by
    have hs : hasNoPlaceholder s = true := h
    simp [replace_in_obj, subLC_of_no_placeholder env s hs, Except.map]
  | .jarr items, h => by
    simp only [replace_in_obj, replaceList_id env items h]
    rfl
  | .jobj fields, h => by
    simp only [replace_in_obj, replaceFields_id env fields h]
    rfl
theorem replaceList_id (env : String → Option String) :
    ∀ js : JList, noPHList js = true → replaceList env js = .ok js
  | .nil, _ => rfl
  | .cons j js, h => by
    have hp : noPHJson j = true ∧ noPHList js = true := by
      have := h
      simp only [noPHList, Bool.and_eq_true] at this
      exact this
    simp only [replaceList, replace_in_obj_id env j hp.1, replaceList_id env js hp.2]
theorem replaceFields_id (env : String → Option String) :
    ∀ fs : JFields, noPHFields fs = true → replaceFields env fs = .ok fs
  | .nil, _ => rfl
  | .cons k v fs, h => by
    have hp : noPHJson v = true ∧ noPHFields fs = true := by
      have := h
      simp only [noPHFields, Bool.and_eq_true] at this
      exact this
    simp only [replaceFields, replace_in_obj_id env v hp.1, replaceFields_id env fs hp.2]
end

mutual
theorem replace_in_obj_error (env : String → Option String) (v : String)
    (hmiss : env v = none) :
    ∀ j : Json, v ∈ jsonVars j → ∃ msg, replace_in_obj env j = .error msg
  | .jnull, hv => by simp [jsonVars] at hv
  | .jbool _, hv => by simp [jsonVars] at hv
  | .jnum _, hv => by simp [jsonVars] at hv
  | .jstr s, hv => by
    obtain ⟨msg, hmsg⟩ := subLC_error_of_missing env s v hv hmiss
    exact ⟨msg, by simp [replace_in_obj, hmsg, Except.map]⟩
  | .jarr items, hv => by
    obtain ⟨msg, hmsg⟩ := replaceList_error env v hmiss items hv
    exact ⟨msg, by simp [replace_in_obj, hmsg, Except.map]⟩
  | .jobj fields, hv => by
    obtain ⟨msg, hmsg⟩ := replaceFields_error env v hmiss fields hv
    exact ⟨msg, by simp [replace_in_obj, hmsg, Except.map]⟩
theorem replaceList_error (env : String → Option String) (v : String)
    (hmiss : env v = none) :
    ∀ js : JList, v ∈ jListVars js → ∃ msg, replaceList env js = .error msg
  | .cons j js, hv => by
    rcases List.mem_append.mp hv with hj | hjs
    · obtain ⟨msg, hmsg⟩ := replace_in_obj_error env v hmiss j hj
      exact ⟨msg, by simp [replaceList, hmsg]⟩
    · obtain ⟨msg, hmsg⟩ := replaceList_error env v hmiss js hjs
      cases hrep : replace_in_obj env j with
      | ok j2 => exact ⟨msg, by simp [replaceList, hrep, hmsg]⟩
      | error e => exact ⟨e, by simp [replaceList, hrep]⟩
theorem replaceFields_error (env : String → Option String) (v : String)
    (hmiss : env v = none) :
    ∀ fs : JFields, v ∈ jFieldsVars fs → ∃ msg, replaceFields env fs = .error msg
  | .cons k w fs, hv => by
    rcases List.mem_append.mp hv with hw | hfs
    · obtain ⟨msg, hmsg⟩ := replace_in_obj_error env v hmiss w hw
      exact ⟨msg, by simp [replaceFields, hmsg]⟩
    · obtain ⟨msg, hmsg⟩ := replaceFields_error env v hmiss fs hfs
      cases hrep : replace_in_obj env w with
      | ok w2 => exact ⟨msg, by simp [replaceFields, hrep, hmsg]⟩
      | error e => exact ⟨e, by simp [replaceFields, hrep]⟩
end

theorem mem_stripSlashes {c : Char} {l : List Char} (h : c ∈ stripSlashes l) :
    c ∈ l := by
  unfold stripSlashes at h
  rw [List.mem_reverse] at h
  have h2 := (List.dropWhile_sublist _).mem h
  rw [List.mem_reverse] at h2
  exact (List.dropWhile_sublist _).mem h2

theorem head?_dropWhile_false {p : Char → Bool} {c : Char} :
    ∀ {l : List Char}, (l.dropWhile p).head? = some c → p c = false := by
  intro l
  induction l with
  | nil => intro h; simp [List.dropWhile] at h
  | cons a l ih =>
    intro h
    rw [List.dropWhile_cons] at h
    by_cases ha : p a
    · rw [if_pos ha] at h
      exact ih h
    · rw [if_neg ha] at h
      simp only [List.head?_cons, Option.some.injEq] at h
      subst h
      exact Bool.not_eq_true _ |>.mp ha

theorem getLast?_dropWhile {p : Char → Bool} {c : Char} :
    ∀ {l : List Char}, (l.dropWhile p).getLast? = some c → l.getLast? = some c := by
  intro l
  induction l with
  | nil => intro h; simp [List.dropWhile] at h
  | cons a l ih =>
    intro h
    rw [List.dropWhile_cons] at h
    by_cases ha : p a
    · rw [if_pos ha] at h
      have hl : l ≠ [] := by
        intro hnil
        subst hnil
        simp [List.dropWhile] at h
      cases l with
      | nil => exact absurd rfl hl
      | cons b l' => rw [List.getLast?_cons_cons]; exact ih h
    · rw [if_neg ha] at h
      exact h

theorem stripSlashes_head? {c : Char} {l : List Char}
    (h : (stripSlashes l).head? = some c) : c ≠ '/' := by
  unfold stripSlashes at h
  rw [List.head?_reverse] at h
  have h2 := getLast?_dropWhile h
  rw [List.getLast?_reverse] at h2
  have := head?_dropWhile_false h2
  simpa using this

theorem stripSlashes_getLast? {c : Char} {l : List Char}
    (h : (stripSlashes l).getLast? = some c) : c ≠ '/' := by
  unfold stripSlashes at h
  rw [List.getLast?_reverse] at h
  have := head?_dropWhile_false h
  simpa using this

theorem mem_joinSlash {c : Char} :
    ∀ {ps : List (List Char)}, c ∈ joinSlash ps → c = '/' ∨ ∃ p ∈ ps, c ∈ p := by
  intro ps
  induction ps with
  | nil => intro h; simp [joinSlash] at h
  | cons p ps ih =>
    intro h
    cases ps with
    | nil =>
      simp only [joinSlash] at h
      exact Or.inr ⟨p, List.mem_cons_self _ _, h⟩
    | cons q ps' =>
      simp only [joinSlash, List.mem_append, List.mem_cons] at h
      rcases h with hp | rfl | hrest
      · exact Or.inr ⟨p, List.mem_cons_self _ _, hp⟩
      · exact Or.inl rfl
      · rcases ih hrest with h1 | ⟨r, hr, hcr⟩
        · exact Or.inl h1
        · exact Or.inr ⟨r, List.mem_cons_of_mem _ hr, hcr⟩

theorem joinSlash_head? {p : List Char} {ps : List (List Char)} (hp : p ≠ []) :
    (joinSlash (p :: ps)).head? = p.head? := by
  cases ps with
  | nil => rfl
  | cons q ps' =>
    simp only [joinSlash]
    exact List.head?_append_of_ne_nil _ hp

theorem joinSlash_ne_nil {p : List Char} {ps : List (List Char)} (hp : p ≠ []) :
    joinSlash (p :: ps) ≠ [] := by
  intro h
  have := @joinSlash_head? p ps hp
  rw [h] at this
  cases p with
  | nil => exact hp rfl
  | cons a p' => simp at this

theorem joinSlash_getLast? :
    ∀ {ps : List (List Char)} {p : List Char}, ps.getLast? = some p →
      (∀ q ∈ ps, q ≠ []) → (joinSlash ps).getLast? = p.getLast? := by
  intro ps
  induction ps with
  | nil => intro p h; simp at h
  | cons p0 ps ih =>
    intro p hlast hall
    cases ps with
    | nil =>
      simp only [List.getLast?_singleton, Option.some.injEq] at hlast
      subst hlast
      rfl
    | cons q ps' =>
      rw [List.getLast?_cons_cons] at hlast
      have hq : ∀ r ∈ q :: ps', r ≠ [] := fun r hr => hall r (List.mem_cons_of_mem _ hr)
      have hqne : q ≠ [] := hq q (List.mem_cons_self _ _)
      simp only [joinSlash]
      rw [List.getLast?_append_of_ne_nil _ (by simp)]
      have hjoin : joinSlash (q :: ps') ≠ [] := joinSlash_ne_nil hqne
      cases hj : joinSlash (q :: ps') with
      | nil => exact absurd hj hjoin
      | cons b l' =>
        rw [List.getLast?_cons_cons, ← hj]
        exact ih hlast hq

theorem filterMap_length_filter {α β : Type} (f : α → Option β) :
    ∀ l : List α, (l.filterMap f).length = (l.filter (fun a => (f a).isSome)).length := by
  intro l
  induction l with
  | nil => rfl
  | cons a l ih =>
    rw [List.filterMap_cons, List.filter_cons]
    cases hf : f a with
    | none => simpa [hf] using ih
    | some b => simpa [hf] using ih

/-- C7: for every JSON/YAML document containing no placeholder tokens in any
of its string values, and for every environment mapping, environment
variable injection returns the document unchanged. -/
theorem C7_injection_identity_on_placeholder_free_docs
    (env : String → Option String) (doc : Json) (h : noPHJson doc = true) :
    replace_in_obj env doc = .ok doc :=
  replace_in_obj_id env doc h

theorem C7_injection_identity_witness :
    noPHJson docC7 = true ∧ replace_in_obj envNone docC7 = .ok docC7 :=
  ⟨by decide, C7_injection_identity_on_placeholder_free_docs envNone docC7 (by decide)⟩

/-- C8: an upload task whose structured source document references a
variable absent from the environment mapping fails with a descriptive
message, uploads nothing for that task, and contributes exactly its own
failure message to the collected errors while every other task in the list
is still attempted with an unchanged outcome. -/
theorem C8_missing_variable_scoped_to_task (w : UploadWorld)
    (env : String → Option String) (t : UTask) (r : HttpResp) (v : String)
    (hp : w.presign t.s3_key = .ok r) (h200 : r.status_code = 200)
    (hext : (strEndsWith (basename t.file_path) ".json"
      || strEndsWith (basename t.file_path) ".yaml") = true)
    (hload : (strEndsWith t.file_path ".yaml" || strEndsWith t.file_path ".yml"
      || strEndsWith t.file_path ".json") = true)
    (hv : v ∈ jsonVars (w.fileDoc t.file_path)) (hmiss : env v = none) :
    ∃ msg, upload_file w env t = (some ("Error uploading " ++ t.file_path ++ ": " ++ msg), []) ∧
      ∀ pre post : List UTask,
        (pre ++ t :: post).filterMap (fun u => (upload_file w env u).1) =
          pre.filterMap (fun u => (upload_file w env u).1) ++
            ("Error uploading " ++ t.file_path ++ ": " ++ msg) ::
            post.filterMap (fun u => (upload_file w env u).1) := by
  obtain ⟨msg, hmsg⟩ := replace_in_obj_error env v hmiss (w.fileDoc t.file_path) hv
  have hinj : inject_env_into_schema t.file_path (w.fileDoc t.file_path) env = .error msg := by
    unfold inject_env_into_schema
    rw [if_pos hload, hmsg]
    rfl
  have hupl : upload_file w env t =
      (some ("Error uploading " ++ t.file_path ++ ": " ++ msg), []) := by
    unfold upload_file
    split
    · next e heq => rw [hp] at heq; cases heq
    · next resp heq =>
      rw [hp] at heq
      injection heq with heq2
      subst heq2
      rw [h200, if_neg (show ¬((200:Nat) ≠ 200) by norm_num)]
      simp only [hext, if_true, hinj]
  refine ⟨msg, hupl, fun pre post => ?_⟩
  rw [List.filterMap_append, List.filterMap_cons, hupl]

theorem C8_missing_variable_witness :
    wC8.presign tskC8.s3_key = .ok ⟨200, "", "https://s3.example/upload"⟩ ∧
    (strEndsWith (basename tskC8.file_path) ".json"
      || strEndsWith (basename tskC8.file_path) ".yaml") = true ∧
    (strEndsWith tskC8.file_path ".yaml" || strEndsWith tskC8.file_path ".yml"
      || strEndsWith tskC8.file_path ".json") = true ∧
    "DB_URL" ∈ jsonVars (wC8.fileDoc tskC8.file_path) ∧
    envNone "DB_URL" = none ∧
    (∃ msg, upload_file wC8 envNone tskC8 =
        (some ("Error uploading " ++ tskC8.file_path ++ ": " ++ msg), []) ∧
      ∀ pre post : List UTask,
        (pre ++ tskC8 :: post).filterMap (fun u => (upload_file wC8 envNone u).1) =
          pre.filterMap (fun u => (upload_file wC8 envNone u).1) ++
            ("Error uploading " ++ tskC8.file_path ++ ": " ++ msg) ::
            post.filterMap (fun u => (upload_file wC8 envNone u).1)) :=
  ⟨rfl, by decide, by decide, by decide, rfl,
    C8_missing_variable_scoped_to_task wC8 envNone tskC8 ⟨200, "", "https://s3.example/upload"⟩
      "DB_URL" rfl rfl (by decide) (by decide) (by decide) rfl⟩

/-- C9: the cancel command passes the deployment id as the keyword argument
`deployment_id` to `Session.post`, which forwards it to `Session.request`;
`request()` rejects it with a `TypeError` before any request is sent, so for
every deployment id the command raises instead of issuing a `POST` to the
`/cancel/` endpoint with the id in the body. -/
theorem C9_cancel_raises_type_error (oracle : HttpRequest → HttpResp)
    (base deployment_id : String) :
    cancel oracle base deployment_id =
      (.error (.typeError "request() got an unexpected keyword argument deployment_id"), []) :=
  rfl

/-- C10: amended - for string components, the result of `join_s3_path`
never contains a backslash, and provided each component still has content
after separator replacement and slash stripping, the result neither begins
nor ends with a forward slash. -/
theorem C10_join_s3_path_normalization (sep : Char) (parts : List S3Part)
    (ss : List String) (hstr : parts = ss.map S3Part.strPart)
    (hne : ∀ s ∈ ss, stripSlashes (normalizeS3Part sep (.strPart s)) ≠ []) :
    (∀ c ∈ (join_s3_path sep parts).data, c ≠ '\\') ∧
    (∀ c, (join_s3_path sep parts).data.head? = some c → c ≠ '/') ∧
    (∀ c, (join_s3_path sep parts).data.getLast? = some c → c ≠ '/') := by
  subst hstr
  refine ⟨?_, ?_, ?_⟩
  · intro c hc
    unfold join_s3_path at hc
    rcases mem_joinSlash hc with rfl | ⟨p, hp, hcp⟩
    · decide
    · rw [List.map_map] at hp
      simp only [Function.comp_def, List.mem_map] at hp
      obtain ⟨s, _, rfl⟩ := hp
      have hcn := mem_stripSlashes hcp
      unfold normalizeS3Part charReplace at hcn
      simp only [List.mem_map] at hcn
      obtain ⟨d, hd, rfl⟩ := hcn
      obtain ⟨x, _, rfl⟩ := hd
      split
      · split <;> decide
      · next hB =>
        split
        · decide
        · simpa using hB
  · intro c hc
    unfold join_s3_path at hc
    cases ss with
    | nil => simp [joinSlash] at hc
    | cons s0 ss' =>
      simp only [List.map_cons] at hc
      rw [joinSlash_head? (hne s0 (List.mem_cons_self _ _))] at hc
      exact stripSlashes_head? hc
  · intro c hc
    unfold join_s3_path at hc
    rw [List.map_map] at hc
    simp only [Function.comp_def] at hc
    cases hlast : (ss.map (fun s =>
        stripSlashes (normalizeS3Part sep (S3Part.strPart s)))).getLast? with
    | none =>
      have hnil : ss.map (fun s => stripSlashes (normalizeS3Part sep (S3Part.strPart s))) = [] :=
        List.getLast?_eq_none_iff.mp hlast
      rw [hnil] at hc
      simp [joinSlash] at hc
    | some p =>
      have hpmem : p ∈ ss.map (fun s =>
          stripSlashes (normalizeS3Part sep (S3Part.strPart s))) := by
        obtain ⟨hnil, hp⟩ := List.mem_getLast?_eq_getLast hlast
        rw [hp]
        exact List.getLast_mem _
      obtain ⟨s, _, hps⟩ := List.mem_map.mp hpmem
      have hall : ∀ q ∈ ss.map (fun s =>
          stripSlashes (normalizeS3Part sep (S3Part.strPart s))), q ≠ [] := by
        intro q hq
        obtain ⟨s2, hs2, hqs⟩ := List.mem_map.mp hq
        rw [← hqs]
        exact hne s2 hs2
      rw [joinSlash_getLast? hlast hall] at hc
      rw [← hps] at hc
      exact stripSlashes_getLast? hc

theorem C10_join_s3_path_witness :
    ([S3Part.strPart "lifecycle", S3Part.strPart "app-1"] =
      (["lifecycle", "app-1"] : List String).map S3Part.strPart) ∧
    (∀ s ∈ (["lifecycle", "app-1"] : List String),
      stripSlashes (normalizeS3Part '/' (.strPart s)) ≠ []) ∧
    ((∀ c ∈ (join_s3_path '/' [S3Part.strPart "lifecycle", S3Part.strPart "app-1"]).data,
        c ≠ '\\') ∧
      (∀ c, (join_s3_path '/' [S3Part.strPart "lifecycle", S3Part.strPart "app-1"]).data.head? =
          some c → c ≠ '/') ∧
      (∀ c, (join_s3_path '/' [S3Part.strPart "lifecycle", S3Part.strPart "app-1"]).data.getLast? =
          some c → c ≠ '/')) :=
  ⟨rfl, by decide,
    C10_join_s3_path_normalization '/' [S3Part.strPart "lifecycle", S3Part.strPart "app-1"]
      ["lifecycle", "app-1"] rfl (by decide)⟩

/-- C10 counterexample: a component that strips to nothing makes the result
begin with a slash, and a POSIX path component keeps its backslash, so the
claimed properties fail as stated. -/
theorem C10_join_s3_path_counterexample :
    join_s3_path '/' [S3Part.strPart "", S3Part.strPart "a"] = "/a" ∧
    ("/a".data.head? = some '/') ∧
    join_s3_path '/' [S3Part.posixPathPart "a\\b"] = "a\\b" ∧
    '\\' ∈ "a\\b".data :=
  ⟨by decide, rfl, by decide, by decide⟩

/-- C1: amended - for every non-empty selection, `upload_services_config_to_s3`
never takes the empty-selection exit, and when it succeeds it returns a
key-prefix mapping whose key set equals the selected services exactly: no
file is excluded for carrying an example marker and no service is dropped
for having zero uploadable files. -/
theorem C1_upload_payload_keys (w : UploadWorld) (env : String → Option String)
    (core_services : List (String × String)) (walk : String → List String)
    (appId depId : String) (sel : List String) (hsel : sel.isEmpty = false) :
    (upload_services_config_to_s3 w env core_services walk appId depId sel ≠ .exitZero) ∧
    ∀ payload svcs,
      upload_services_config_to_s3 w env core_services walk appId depId sel =
          .ok payload svcs →
        payload.map Prod.fst = sel ∧ svcs = sel := by
  unfold upload_services_config_to_s3
  rw [if_neg (by simp [hsel])]
  dsimp only
  constructor
  · split
    · intro h; cases h
    · intro h; cases h
  · intro payload svcs h
    split at h
    · injection h with h1 h2
      refine ⟨?_, h2.symm⟩
      rw [← h1, List.map_map]
      simp [Function.comp_def]
    · cases h

theorem C1_upload_payload_keys_witness :
    ((["beta"] : List String).isEmpty = false) ∧
    ((upload_services_config_to_s3 wOk envNone coreBeta walkBeta "app-1" "dep-1" ["beta"] ≠
        .exitZero) ∧
      ∀ payload svcs,
        upload_services_config_to_s3 wOk envNone coreBeta walkBeta "app-1" "dep-1" ["beta"] =
            .ok payload svcs →
          payload.map Prod.fst = ["beta"] ∧ svcs = ["beta"]) :=
  ⟨rfl, C1_upload_payload_keys wOk envNone coreBeta walkBeta "app-1" "dep-1" ["beta"] rfl⟩

/-- C1 counterexample: a selected service whose folder holds only an
example-marked file is neither dropped nor does the run fail; the service
keeps its payload key and the example file itself becomes an upload task. -/
theorem C1_upload_counterexample :
    upload_services_config_to_s3 wOk envNone coreBeta walkBeta "app-1" "dep-1" ["beta"] =
      .ok [("beta", "lifecycle/app-1/dep-1/beta")] ["beta"] ∧
    allUploadTasks coreBeta walkBeta "app-1" "dep-1" ["beta"] =
      [{ service := "beta", file_path := "b/conf.example.json",
         s3_key := "lifecycle/app-1/dep-1/beta/conf.example.json", folder_path := "b" },
       lifecycleTask "app-1" "dep-1"] :=
  ⟨by decide, by decide⟩

theorem watchServicesPart_halt_iff (d : StatusData) (r : WatchStop) :
    watchServicesPart d = .halt r ↔
      r = .validationFailed ∧ d.services.isEmpty = false ∧
      d.services.any
        (fun kv => kv.2.deployment_status == some "Validation Failed") = true := by
  unfold watchServicesPart
  split
  · next hempty =>
    constructor
    · intro h; cases h
    · rintro ⟨_, h2, _⟩
      rw [hempty] at h2
      cases h2
  · next hempty =>
    split
    · next hany =>
      constructor
      · intro h
        injection h with h1
        exact ⟨h1.symm, by simpa using hempty, hany⟩
      · rintro ⟨rfl, _, _⟩
        rfl
    · next hany =>
      constructor
      · intro h; cases h
      · rintro ⟨_, _, h3⟩
        exact absurd h3 hany

theorem watchErrorPart_halt_iff (ef : Option String) (d : StatusData) (r : WatchStop) :
    watchErrorPart ef d = .halt r ↔
      (r = .notFound ∧ ef = some "Deployment not found") ∨
      (ef ≠ some "Deployment not found" ∧ watchServicesPart d = .halt r) := by
  cases ef with
  | none =>
    simp only [watchErrorPart]
    constructor
    · intro h
      exact Or.inr ⟨by simp, h⟩
    · rintro (⟨_, h⟩ | ⟨_, h⟩)
      · cases h
      · exact h
  | some err =>
    simp only [watchErrorPart]
    by_cases heq : err = "Deployment not found"
    · subst heq
      rw [if_pos (by simp)]
      constructor
      · intro h
        injection h with h1
        exact Or.inl ⟨h1.symm, rfl⟩
      · rintro (⟨rfl, _⟩ | ⟨habs, _⟩)
        · rfl
        · exact absurd rfl habs
    · rw [if_neg (by simpa using heq)]
      constructor
      · intro h
        exact Or.inr ⟨by simpa using heq, h⟩
      · rintro (⟨_, h⟩ | ⟨_, h⟩)
        · injection h with h1
          exact absurd h1 heq
        · exact h

theorem watchInfoPart_halt_iff (inf : Option String) (d : StatusData) (r : WatchStop) :
    watchInfoPart inf d = .halt r ↔
      (r = .connectionClosed ∧
        ∃ m, inf = some m ∧ strContains m "Connection closed" = true) ∨
      ((∀ m, inf = some m → strContains m "Connection closed" = false) ∧
        watchErrorPart d.errorField d = .halt r) := by
  cases inf with
  | none =>
    simp only [watchInfoPart]
    constructor
    · intro h
      exact Or.inr ⟨fun m hm => Option.noConfusion hm, h⟩
    · rintro (⟨_, m, hm, _⟩ | ⟨_, h⟩)
      · cases hm
      · exact h
  | some m =>
    simp only [watchInfoPart]
    by_cases hcc : strContains m "Connection closed" = true
    · rw [if_pos hcc]
      constructor
      · intro h
        injection h with h1
        exact Or.inl ⟨h1.symm, m, rfl, hcc⟩
      · rintro (⟨rfl, _⟩ | ⟨hno, _⟩)
        · rfl
        · have h2 := hno m rfl
          rw [h2] at hcc
          cases hcc
    · rw [if_neg hcc]
      constructor
      · intro h
        refine Or.inr ⟨fun m2 hm2 => ?_, h⟩
        injection hm2 with h3
        subst h3
        simpa using hcc
      · rintro (⟨_, m2, hm2, hcc2⟩ | ⟨_, h⟩)
        · injection hm2 with h3
          subst h3
          exact absurd hcc2 hcc
        · exact h

/-- C2: amended - the watch loop never counts completed services: it stops
exactly on a connection-closed info frame, a deployment-not-found error
frame, or a frame whose non-empty service map reports `Validation Failed`
(checked in that order); every other frame, including one in which every
service is in a terminal success state, lets the loop continue, and the
loop runs to the end of the stream whenever no frame matches a stop
condition. -/
theorem C2_watch_stop_characterization :
    (watchStep .emptyData = .continueLoop) ∧
    (∀ raw, watchStep (.badJson raw) = .continueLoop) ∧
    (∀ d, watchStep (.jsonData d) = .halt .connectionClosed ↔
      ∃ m, d.infoField = some m ∧ strContains m "Connection closed" = true) ∧
    (∀ d, watchStep (.jsonData d) = .halt .notFound ↔
      (∀ m, d.infoField = some m → strContains m "Connection closed" = false) ∧
      d.errorField = some "Deployment not found") ∧
    (∀ d, watchStep (.jsonData d) = .halt .validationFailed ↔
      (∀ m, d.infoField = some m → strContains m "Connection closed" = false) ∧
      d.errorField ≠ some "Deployment not found" ∧
      d.services.isEmpty = false ∧
      d.services.any
        (fun kv => kv.2.deployment_status == some "Validation Failed") = true) ∧
    (∀ events, get_status_watch events = none ↔
      ∀ e ∈ events, watchStep e = .continueLoop) := by
  refine ⟨rfl, fun _ => rfl, ?_, ?_, ?_, ?_⟩
  · intro d
    rw [show watchStep (.jsonData d) = watchInfoPart d.infoField d from rfl,
      watchInfoPart_halt_iff]
    constructor
    · rintro (⟨_, hm⟩ | ⟨_, h⟩)
      · exact hm
      · rcases (watchErrorPart_halt_iff _ d _).mp h with ⟨h1, _⟩ | ⟨_, h2⟩
        · cases h1
        · rcases (watchServicesPart_halt_iff d _).mp h2 with ⟨h3, _⟩
          cases h3
    · intro hm
      exact Or.inl ⟨rfl, hm⟩
  · intro d
    rw [show watchStep (.jsonData d) = watchInfoPart d.infoField d from rfl,
      watchInfoPart_halt_iff]
    constructor
    · rintro (⟨h1, _⟩ | ⟨hno, h⟩)
      · cases h1
      · rcases (watchErrorPart_halt_iff _ d _).mp h with ⟨_, hef⟩ | ⟨_, h2⟩
        · exact ⟨hno, hef⟩
        · rcases (watchServicesPart_halt_iff d _).mp h2 with ⟨h3, _⟩
          cases h3
    · rintro ⟨hno, hef⟩
      exact Or.inr ⟨hno, (watchErrorPart_halt_iff _ d _).mpr (Or.inl ⟨rfl, hef⟩)⟩
  · intro d
    rw [show watchStep (.jsonData d) = watchInfoPart d.infoField d from rfl,
      watchInfoPart_halt_iff]
    constructor
    · rintro (⟨h1, _⟩ | ⟨hno, h⟩)
      · cases h1
      · rcases (watchErrorPart_halt_iff _ d _).mp h with ⟨h1, _⟩ | ⟨hne, h2⟩
        · cases h1
        · rcases (watchServicesPart_halt_iff d _).mp h2 with ⟨_, h3, h4⟩
          exact ⟨hno, hne, h3, h4⟩
    · rintro ⟨hno, hne, h3, h4⟩
      exact Or.inr ⟨hno, (watchErrorPart_halt_iff _ d _).mpr
        (Or.inr ⟨hne, (watchServicesPart_halt_iff d _).mpr ⟨rfl, h3, h4⟩⟩)⟩
  · intro events
    induction events with
    | nil => simp [get_status_watch]
    | cons e rest ih =>
      simp only [get_status_watch]
      cases hstep : watchStep e with
      | halt r =>
        simp only [hstep]
        constructor
        · intro h; cases h
        · intro h
          have h2 := h e (List.mem_cons_self _ _)
          rw [hstep] at h2
          cases h2
      | continueLoop =>
        simp only [hstep]
        rw [ih]
        constructor
        · intro h e2 he2
          rcases List.mem_cons.mp he2 with rfl | h2
          · exact hstep
          · exact h e2 h2
        · intro h e2 he2
          exact h e2 (List.mem_cons_of_mem _ he2)

/-- C2 counterexample: a frame in which every service reports the terminal
status `Done` does not stop the loop (the stream simply runs dry), while a
frame with one `Validation Failed` service stops the loop even though the
other service is still in progress. -/
theorem C2_watch_counterexample :
    watchStep (.jsonData frameAllDone) = .continueLoop ∧
    get_status_watch [.jsonData frameAllDone] = none ∧
    watchStep (.jsonData frameMixed) = .halt .validationFailed :=
  ⟨by decide, by decide, by decide⟩

/-- C6: amended - a task whose file name ends in `.json` or `.yaml` uploads
the re-serialized, placeholder-substituted document, while every other file
name - `.yml` included - uploads the raw file bytes unchanged. -/
theorem C6_structured_vs_raw_upload (w : UploadWorld)
    (env : String → Option String) (t : UTask) (r : HttpResp)
    (hp : w.presign t.s3_key = .ok r) (h200 : r.status_code = 200) :
    ((strEndsWith (basename t.file_path) ".json"
        || strEndsWith (basename t.file_path) ".yaml") = true →
      ∀ content,
        inject_env_into_schema t.file_path (w.fileDoc t.file_path) env = .ok content →
          (upload_file w env t).2 = [⟨r.url, .strBody content⟩]) ∧
    ((strEndsWith (basename t.file_path) ".json"
        || strEndsWith (basename t.file_path) ".yaml") = false →
      (upload_file w env t).2 = [⟨r.url, .rawBody (w.fileRaw t.file_path)⟩]) := by
  constructor
  · intro hext content hinj
    unfold upload_file
    split
    · next e heq => rw [hp] at heq; cases heq
    · next resp heq =>
      rw [hp] at heq
      injection heq with heq2
      subst heq2
      rw [h200, if_neg (show ¬((200:Nat) ≠ 200) by norm_num)]
      simp only [hext, if_true, hinj]
      cases hput : w.put r.url (.strBody content) with
      | error e => rfl
      | ok status =>
        dsimp only
        split
        · rfl
        · rfl
  · intro hext
    unfold upload_file
    split
    · next e heq => rw [hp] at heq; cases heq
    · next resp heq =>
      rw [hp] at heq
      injection heq with heq2
      subst heq2
      rw [h200, if_neg (show ¬((200:Nat) ≠ 200) by norm_num)]
      simp only [hext, Bool.false_eq_true, if_false]
      cases hput : w.put r.url (.rawBody (w.fileRaw t.file_path)) with
      | error e => rfl
      | ok status =>
        dsimp only
        split
        · rfl
        · rfl

theorem C6_structured_vs_raw_witness :
    wC6.presign tskJson.s3_key = .ok ⟨200, "", "u"⟩ ∧
    (((strEndsWith (basename tskJson.file_path) ".json"
        || strEndsWith (basename tskJson.file_path) ".yaml") = true →
      ∀ content,
        inject_env_into_schema tskJson.file_path (wC6.fileDoc tskJson.file_path) envHost =
            .ok content →
          (upload_file wC6 envHost tskJson).2 = [⟨"u", .strBody content⟩]) ∧
    ((strEndsWith (basename tskJson.file_path) ".json"
        || strEndsWith (basename tskJson.file_path) ".yaml") = false →
      (upload_file wC6 envHost tskJson).2 =
        [⟨"u", .rawBody (wC6.fileRaw tskJson.file_path)⟩])) :=
  ⟨rfl, C6_structured_vs_raw_upload wC6 envHost tskJson ⟨200, "", "u"⟩ rfl rfl⟩

/-- C6 counterexample: a `.yml` task streams the raw bytes unchanged even
though its document holds a placeholder the environment could resolve; the
uploaded body is not the serialization of the substituted document. -/
theorem C6_yml_counterexample :
    (upload_file wC6 envHost tskYml).2 = [⟨"u", PutBody.rawBody [7, 8]⟩] ∧
    jsonVars (wC6.fileDoc tskYml.file_path) = ["HOST"] ∧
    envHost "HOST" = some "h" ∧
    (upload_file wC6 envHost tskYml).2 ≠
      [⟨"u", PutBody.strBody
        (yamlDump (Json.jobj (JFields.cons "url" (Json.jstr "h") JFields.nil)))⟩] :=
  ⟨by decide, by decide, rfl, by decide⟩

theorem tenacityAux_attempts {α : Type} (retryable : PyExc → Bool)
    (f : Nat → Except PyExc α) :
    ∀ rem i, (tenacityAux retryable f rem i).attemptsMade ≤ i + rem := by
  intro rem
  induction rem with
  | zero => intro i; simp [tenacityAux, RetryOutcome.attemptsMade]
  | succ rem ih =>
    intro i
    rw [tenacityAux]
    cases hfi : f i with
    | ok a =>
      simp only [hfi, RetryOutcome.attemptsMade]
      omega
    | error e =>
      simp only [hfi]
      split
      · split
        · simp only [RetryOutcome.attemptsMade]
          omega
        · exact le_trans (ih (i+1)) (by omega)
      · simp only [RetryOutcome.attemptsMade]
        omega

/-- C3: per-task failures (a raised exception or a non-200 answer on the
presigned-URL request) only mark that one task as failed; the orchestrator
runs the complete task list, collects exactly one message per failed task,
and exits non-zero precisely when at least one task failed, reporting the
whole collected error list, and succeeds with the payload otherwise. -/
theorem C3_per_task_failure_aggregation (w : UploadWorld)
    (env : String → Option String) (core_services : List (String × String))
    (walk : String → List String) (appId depId : String) (sel : List String)
    (hsel : sel.isEmpty = false) :
    (∀ t : UTask, ∀ e, w.presign t.s3_key = .error e →
      (upload_file w env t).1 =
        some ("Error uploading " ++ t.file_path ++ ": " ++ e)) ∧
    (∀ t : UTask, ∀ r, w.presign t.s3_key = .ok r → r.status_code ≠ 200 →
      (upload_file w env t).1 =
        some ("Failed to generate presigned URL for " ++ t.file_path ++ ": " ++ r.text)) ∧
    (∀ t : UTask, ∀ r e, w.presign t.s3_key = .ok r → r.status_code = 200 →
      (strEndsWith (basename t.file_path) ".json"
        || strEndsWith (basename t.file_path) ".yaml") = false →
      w.put r.url (.rawBody (w.fileRaw t.file_path)) = .error e →
      (upload_file w env t).1 =
        some ("Error uploading " ++ t.file_path ++ ": " ++ e)) ∧
    (∀ t : UTask, ∀ r status, w.presign t.s3_key = .ok r → r.status_code = 200 →
      (strEndsWith (basename t.file_path) ".json"
        || strEndsWith (basename t.file_path) ".yaml") = false →
      w.put r.url (.rawBody (w.fileRaw t.file_path)) = .ok status → status ≠ 200 →
      (upload_file w env t).1 =
        some ("Upload failed for " ++ t.file_path ++ ": HTTP " ++ toString status)) ∧
    ((allUploadTasks core_services walk appId depId sel).filterMap
        (fun t => (upload_file w env t).1)).length =
      ((allUploadTasks core_services walk appId depId sel).filter
        (fun t => ((upload_file w env t).1).isSome)).length ∧
    (upload_services_config_to_s3 w env core_services walk appId depId sel =
        .exitOne ((allUploadTasks core_services walk appId depId sel).filterMap
          (fun t => (upload_file w env t).1)) ↔
      (allUploadTasks core_services walk appId depId sel).filterMap
          (fun t => (upload_file w env t).1) ≠ []) ∧
    ((allUploadTasks core_services walk appId depId sel).filterMap
          (fun t => (upload_file w env t).1) = [] →
      upload_services_config_to_s3 w env core_services walk appId depId sel =
        .ok (sel.map (fun s => (s, serviceKeyPfx appId depId s))) sel) := by
  refine ⟨?_, ?_, ?_, ?_, ?_, ?_, ?_⟩
  · intro t e he
    unfold upload_file
    split
    · next e2 heq =>
      rw [he] at heq
      injection heq with h1
      subst h1
      rfl
    · next resp heq => rw [he] at heq; cases heq
  · intro t r hr hstatus
    unfold upload_file
    split
    · next e2 heq => rw [hr] at heq; cases heq
    · next resp heq =>
      rw [hr] at heq
      injection heq with h1
      subst h1
      rw [if_pos hstatus]
  · intro t r e hr h200 hext hput
    unfold upload_file
    split
    · next e2 heq => rw [hr] at heq; cases heq
    · next resp heq =>
      rw [hr] at heq
      injection heq with h1
      subst h1
      rw [h200, if_neg (show ¬((200:Nat) ≠ 200) by norm_num)]
      simp only [hext, Bool.false_eq_true, if_false, hput]
  · intro t r status hr h200 hext hput hs
    unfold upload_file
    split
    · next e2 heq => rw [hr] at heq; cases heq
    · next resp heq =>
      rw [hr] at heq
      injection heq with h1
      subst h1
      rw [h200, if_neg (show ¬((200:Nat) ≠ 200) by norm_num)]
      simp only [hext, Bool.false_eq_true, if_false, hput]
      rw [if_pos hs]
  · exact filterMap_length_filter _ _
  · unfold upload_services_config_to_s3
    rw [if_neg (by simp [hsel])]
    dsimp only
    cases hE : (allUploadTasks core_services walk appId depId sel).filterMap
        (fun t => (upload_file w env t).1) with
    | nil =>
      rw [if_pos (by simp)]
      constructor
      · intro h; cases h
      · intro h; exact absurd rfl h
    | cons a l =>
      rw [if_neg (by simp)]
      exact ⟨fun _ => by simp, fun _ => rfl⟩
  · intro hE
    unfold upload_services_config_to_s3
    rw [if_neg (by simp [hsel])]
    dsimp only
    rw [hE, if_pos (by simp)]

theorem C3_per_task_failure_witness :
    upload_services_config_to_s3 wMix envNone coreAlpha walkAlpha "app-1" "dep-1" ["alpha"] =
      .exitOne ((allUploadTasks coreAlpha walkAlpha "app-1" "dep-1" ["alpha"]).filterMap
        (fun t => (upload_file wMix envNone t).1)) :=
  (C3_per_task_failure_aggregation wMix envNone coreAlpha walkAlpha "app-1" "dep-1"
    ["alpha"] rfl).2.2.2.2.2.1.mpr (by decide)

/-- C4: amended - the account-id fetch and the Developer Studio create are
each retried up to 3 attempts; the retry predicate covers every
`requests.exceptions.RequestException` and `ConnectionError`, which includes
the `HTTPError` that `raise_for_status` raises for 4xx (and 5xx) responses,
so a 4xx answer is retried; only exceptions outside that set, such as the
missing-account-id `ValueError`, propagate immediately without retry. -/
theorem C4_retry_semantics :
    (∀ meResp, (fetch_account_id meResp).attemptsMade ≤ 3) ∧
    (∀ dsResp, (tenacityRun retryPredicate 3 (createDsAttempt dsResp)).attemptsMade ≤ 3) ∧
    (∀ s, retryPredicate (.httpError s) = true) ∧
    (∀ meResp (r : MeResp) (a : String), meResp 0 = .ok r →
      raisesForStatus r.status_code = true → meResp 1 = .ok ⟨200, some a⟩ →
      fetch_account_id meResp = .ok 2 a) ∧
    (∀ dsResp (r r2 : DsResp), dsResp 0 = .ok r →
      raisesForStatus r.status_code = true → dsResp 1 = .ok r2 →
      raisesForStatus r2.status_code = false →
      tenacityRun retryPredicate 3 (createDsAttempt dsResp) = .ok 2 r2) ∧
    (∀ meResp m, fetchAccountIdAttempt meResp 0 = .error (.valueError m) →
      fetch_account_id meResp = .raised 1 (.valueError m)) ∧
    (∀ meResp, (∀ i, i < 3 → ∃ e, fetchAccountIdAttempt meResp i = .error e ∧
        retryPredicate e = true) →
      ∃ e, fetch_account_id meResp = .retryError 3 e ∧ retryPredicate e = true) := by
  refine ⟨?_, ?_, fun s => rfl, ?_, ?_, ?_, ?_⟩
  · intro meResp
    exact tenacityAux_attempts retryPredicate (fetchAccountIdAttempt meResp) 3 0
  · intro dsResp
    exact tenacityAux_attempts retryPredicate (createDsAttempt dsResp) 3 0
  · intro meResp r a h0 hraise h1
    have ha0 : fetchAccountIdAttempt meResp 0 = .error (.httpError r.status_code) := by
      unfold fetchAccountIdAttempt
      simp only [h0]
      rw [if_pos hraise]
    have ha1 : fetchAccountIdAttempt meResp 1 = .ok a := by
      unfold fetchAccountIdAttempt
      simp only [h1]
      rw [if_neg (by simp [raisesForStatus])]
    unfold fetch_account_id tenacityRun
    rw [tenacityAux]
    simp only [ha0]
    rw [if_pos (show retryPredicate (.httpError r.status_code) = true from rfl),
      if_neg (by decide)]
    rw [tenacityAux]
    simp only [ha1]
  · intro dsResp r r2 h0 hraise h1 hok
    have ha0 : createDsAttempt dsResp 0 = .error (.httpError r.status_code) := by
      unfold createDsAttempt
      simp only [h0]
      rw [if_pos hraise]
    have ha1 : createDsAttempt dsResp 1 = .ok r2 := by
      unfold createDsAttempt
      simp only [h1]
      rw [if_neg (by simp [hok])]
    unfold tenacityRun
    rw [tenacityAux]
    simp only [ha0]
    rw [if_pos (show retryPredicate (.httpError r.status_code) = true from rfl),
      if_neg (by decide)]
    rw [tenacityAux]
    simp only [ha1]
  · intro meResp m h0
    unfold fetch_account_id tenacityRun
    rw [tenacityAux]
    simp only [h0]
    rw [if_neg (by simp [retryPredicate, isRequestException])]
  · intro meResp h
    obtain ⟨e0, he0, hr0⟩ := h 0 (by norm_num)
    obtain ⟨e1, he1, hr1⟩ := h 1 (by norm_num)
    obtain ⟨e2, he2, hr2⟩ := h 2 (by norm_num)
    refine ⟨e2, ?_, hr2⟩
    unfold fetch_account_id tenacityRun
    rw [tenacityAux]
    simp only [he0]
    rw [if_pos hr0, if_neg (by decide)]
    rw [tenacityAux]
    simp only [he1]
    rw [if_pos hr1, if_neg (by decide)]
    rw [tenacityAux]
    simp only [he2]
    rw [if_pos hr2, if_pos (by decide)]

theorem C4_retry_semantics_witness :
    meResp404 0 = .ok ⟨404, none⟩ ∧
    raisesForStatus (404 : Nat) = true ∧
    meResp404 1 = .ok ⟨200, some "acct-1"⟩ ∧
    fetch_account_id meResp404 = .ok 2 "acct-1" :=
  ⟨rfl, by decide, rfl,
    C4_retry_semantics.2.2.2.1 meResp404 ⟨404, none⟩ "acct-1" rfl (by decide) rfl⟩

/-- C4 counterexample: a 4xx answer is retried - the fetch succeeds on its
second attempt after a 404, and the Developer Studio create succeeds on its
second attempt after a 409, contradicting the no-retry-on-4xx claim. -/
theorem C4_retry_on_4xx_counterexample :
    meResp404 0 = .ok ⟨404, none⟩ ∧
    fetch_account_id meResp404 = .ok 2 "acct-1" ∧
    dsResp409 0 = .ok ⟨409⟩ ∧
    tenacityRun retryPredicate 3 (createDsAttempt dsResp409) = .ok 2 ⟨200⟩ :=
  ⟨rfl, by decide, rfl, by decide⟩

/-- C5: once the IAM record exists and the account id was fetched, any
failure of the Developer Studio create - retry exhaustion (`RetryError`) or
a definitive error - makes `register` delete the IAM record and exit
non-zero; a failing DELETE during cleanup only raises the warning flag and
leaves the non-zero outcome unchanged. -/
theorem C5_rollback_on_ds_failure (w : RegisterWorld) (resp : IamCreateResp)
    (h1 : w.iamCreate = .ok resp) (h2 : raisesForStatus resp.status_code = false)
    (n : Nat) (acct : String) (h3 : fetch_account_id w.meResp = .ok n acct)
    (h4 : (∃ k e, tenacityRun retryPredicate 3 (createDsAttempt w.dsResp) =
        .retryError k e) ∨
      (∃ k e, tenacityRun retryPredicate 3 (createDsAttempt w.dsResp) = .raised k e)) :
    (∀ st, w.deleteResp = .ok st →
      register w = .exitNonZero 1 true (raisesForStatus st)) ∧
    (∀ e, w.deleteResp = .error e → isRequestException e = true →
      register w = .exitNonZero 1 true true) := by
  have hcads : create_application_in_developer_studio w.meResp w.dsResp = .typerExit 1 := by
    unfold create_application_in_developer_studio
    simp only [h3]
    rcases h4 with ⟨k, e, hk⟩ | ⟨k, e, hk⟩ <;> simp only [hk]
  constructor
  · intro st hst
    unfold register
    simp only [h1]
    rw [if_neg (by simp [h2])]
    simp only [hcads]
    unfold delete_application_from_iam
    simp only [hst]
  · intro e he hreq
    unfold register
    simp only [h1]
    rw [if_neg (by simp [h2])]
    simp only [hcads]
    unfold delete_application_from_iam
    simp only [he]
    rw [if_pos hreq]

theorem C5_rollback_witness :
    wRegFail.iamCreate = .ok ⟨200, "app-1"⟩ ∧
    raisesForStatus (200 : Nat) = false ∧
    fetch_account_id wRegFail.meResp = .ok 1 "acct-1" ∧
    tenacityRun retryPredicate 3 (createDsAttempt wRegFail.dsResp) =
      .retryError 3 .reqConnectionError ∧
    register wRegFail = .exitNonZero 1 true true :=
  ⟨rfl, by decide, by decide, by decide,
    (C5_rollback_on_ds_failure wRegFail ⟨200, "app-1"⟩ rfl (by decide) 1 "acct-1"
      (by decide) (Or.inl ⟨3, .reqConnectionError, by decide⟩)).2
      .reqConnectionError rfl rfl⟩
